import Mathlib

/-!
Shallow embedding of phalerts (`phalerts.py`), a webhook service that creates
and updates Maniphest tasks for Prometheus alerts, together with proofs about
its reconciliation logic, its search helpers, its write helpers and its HTTP
handler.

The remote Phabricator tracker is external to the program; its responses are
passed to the embedded functions as explicit values (for the per-function
claims) or produced by an abstract interface `Phab` (for the end-to-end
claims).
-/

/-- The single error class of the program (`class Error(RuntimeError)`); it
carries only a message string. -/
structure Error where
  msg : String
  deriving Repr, DecidableEq

/-- One entry of `result["data"]` of a `project.search` call: the fields the
program reads (`project["phid"]` and `project["fields"]["name"]`). -/
structure Project where
  phid : String
  name : String
  deriving Repr, DecidableEq

/-- A `project.search` response: the `cursor.after` field and the candidate
list, as read by `find_project_phid`. -/
structure ProjectSearchResult where
  after : Option String
  data : List Project
  deriving Repr

/-- One entry of `result["data"]` of a `maniphest.search` call: the fields the
program reads (`id`, `phid`, `fields.name`, `fields.description.raw`, and
`attachments.projects.projectPHIDs`). -/
structure ManiphestTask where
  id : Nat
  phid : String
  name : String
  descriptionRaw : String
  projectPHIDs : List String
  deriving Repr, DecidableEq

/-- A `maniphest.search` response: the `cursor.after` field and the candidate
list, as read by `find_task`. -/
structure TaskSearchResult where
  after : Option String
  data : List ManiphestTask
  deriving Repr

/-- A transaction value: either a string (title, description) or a list of
strings (`projects.add`). -/
inductive TxValue where
  | str (s : String)
  | strs (l : List String)
  deriving Repr, DecidableEq

/-- One Maniphest edit transaction, `dict(type=..., value=...)`. -/
structure Transaction where
  type : String
  value : TxValue
  deriving Repr, DecidableEq

/-- A `maniphest.edit` request as the program sends it: the transaction list
plus the optional `objectIdentifier` (absent for creation, the task's phid for
an update). -/
structure EditRequest where
  transactions : List Transaction
  objectIdentifier : Option String
  deriving Repr, DecidableEq

/-- The `object` field of a `maniphest.edit` response, when present. -/
structure EditObject where
  id : Nat
  phid : String
  deriving Repr, DecidableEq

/-- A `maniphest.edit` response: the optional `object` and the echoed list of
applied transactions (the program only inspects its length, so entries are
modelled as opaque numbers). -/
structure EditResult where
  object : Option EditObject
  transactions : List Nat
  deriving Repr

/-- Truthiness of the `result["cursor"]["after"]` field as tested by
`if result["cursor"]["after"]:` — both Python `None` and the empty string are
falsy. -/
def cursorTruthy : Option String → Bool
  | none => false
  | some s => !(s == "")

/-- `find_project_phid`: checks the cursor, then scans the returned candidates
for the first one whose `fields.name` equals `name` exactly, returning its
phid; raises `Error` if the cursor is truthy or no candidate matches. -/
def find_project_phid (name : String) (result : ProjectSearchResult) :
    Except Error String :=
  if cursorTruthy result.after then
    .error ⟨"Unexpected 'after' cursor while searching for project " ++ name⟩
  else
    match result.data.find? (fun project => project.name == name) with
    | some project => .ok project.phid
    | none => .error ⟨"Could not find project " ++ name⟩

/-- The per-candidate filter of `find_task`'s loop: skip unless the task's
`fields.name` equals the requested title and `set(phids)` is a subset of the
task's assigned `projectPHIDs`. -/
def taskMatches (title : String) (phids : List String) (task : ManiphestTask) : Bool :=
  task.name == title && phids.all fun p => task.projectPHIDs.contains p

/-- `find_task`: checks the cursor, then returns the first candidate passing
`taskMatches` (the search itself is full-text, so the exact-title and
group-superset filtering happens client side); `none` when no candidate
survives. -/
def find_task (title : String) (phids : List String)
    (result : TaskSearchResult) : Except Error (Option ManiphestTask) :=
  if cursorTruthy result.after then
    .error ⟨"Unexpected 'after' cursor while searching for task " ++ title⟩
  else
    .ok (result.data.find? (taskMatches title phids))

/-- The transaction list built by `create_task`: title, description, and a
`projects.add` transaction exactly when `phids` is non-empty
(`if phids: transactions.append(...)`). -/
def create_transactions (title description : String) (phids : List String) :
    List Transaction :=
  [⟨"title", .str title⟩, ⟨"description", .str description⟩] ++
    (if phids.isEmpty then [] else [⟨"projects.add", .strs phids⟩])

/-- The `maniphest.edit` request sent by `create_task`: no
`objectIdentifier`. -/
def create_request (title description : String) (phids : List String) :
    EditRequest :=
  { transactions := create_transactions title description phids
    objectIdentifier := none }

/-- The response check of `create_task`: `if not result.get("object")` raises
`Error`; the missing-object case is modelled by `none`. The source interpolates
the whole response into the message; the fixed text is kept here. -/
def create_task (result : EditResult) : Except Error Unit :=
  if result.object.isSome then .ok ()
  else .error ⟨"Failed to create task. Got response: ..."⟩

/-- The `maniphest.edit` request sent by `update_task`: a single
description-set transaction addressed by `objectIdentifier=task["phid"]`. -/
def update_request (task : ManiphestTask) (description : String) : EditRequest :=
  { transactions := [⟨"description", .str description⟩]
    objectIdentifier := some task.phid }

/-- The response check of `update_task`:
`if len(result["transactions"]) < len(transactions)` raises `Error`. -/
def update_task (task : ManiphestTask) (description : String) (result : EditResult) :
    Except Error Unit :=
  if result.transactions.length <
      (update_request task description).transactions.length then
    .error ⟨"Failed to apply all transactions for task " ++ task.phid⟩
  else .ok ()

/-- The tracker interface as the program consumes it: a response for each
`project.search` (keyed by the name constraint), each `maniphest.search`
(keyed by the title query and the projects constraint), and each
`maniphest.edit` request. -/
structure Phab where
  projectSearch : String → ProjectSearchResult
  taskSearch : String → List String → TaskSearchResult
  edit : EditRequest → EditResult

/-- The reconciliation outcome: which branch of `process_task` ran. -/
inductive Outcome where
  | created
  | updated
  | unchanged
  deriving Repr, DecidableEq

/-- The group-resolution loop of `process_task`:
`for project in projects: phids.append(find_project_phid(project))`.
The first failing name aborts with its error. -/
def resolve_projects (phab : Phab) : List String → List String →
    Except Error (List String)
  | [], phids => .ok phids
  | project :: rest, phids =>
    match find_project_phid project (phab.projectSearch project) with
    | .error e => .error e
    | .ok phid => resolve_projects phab rest (phids ++ [phid])

/-- `process_task`: resolve group names, locate a ticket, then create, leave
unchanged, or update. The result pairs the Python return/raise behaviour with
the list of `maniphest.edit` requests actually sent (writes issued before a
raise are kept in the trace). -/
def process_task (phab : Phab) (title description : String)
    (projects phids : List String) :
    Except Error Outcome × List EditRequest :=
  match resolve_projects phab projects phids with
  | .error e => (.error e, [])
  | .ok phids' =>
    match find_task title phids' (phab.taskSearch title phids') with
    | .error e => (.error e, [])
    | .ok none =>
      let req := create_request title description phids'
      match create_task (phab.edit req) with
      | .error e => (.error e, [req])
      | .ok _ => (.ok .created, [req])
    | .ok (some task) =>
      if task.descriptionRaw == description then (.ok .unchanged, [])
      else
        let req := update_request task description
        match update_task task description (phab.edit req) with
        | .error e => (.error e, [req])
        | .ok _ => (.ok .updated, [req])

/-! ### Helper lemmas about `List.find?` -/

/-- A successful `find?` splits the list into unmatched elements, the hit, and
a tail. -/
theorem find?_some_split {α : Type} (p : α → Bool) :
    ∀ (l : List α) (a : α), l.find? p = some a →
      p a = true ∧ ∃ l₁ l₂, l = l₁ ++ a :: l₂ ∧ ∀ x ∈ l₁, p x = false
  | [], a, h => by simp [List.find?] at h
  | b :: t, a, h => by
    by_cases hpb : p b = true
    · rw [List.find?_cons_of_pos _ hpb] at h
      obtain rfl : b = a := by injection h
      exact ⟨hpb, [], t, rfl, by simp⟩
    · rw [List.find?_cons_of_neg _ hpb] at h
      obtain ⟨hpa, l₁, l₂, rfl, hl₁⟩ := find?_some_split p t a h
      refine ⟨hpa, b :: l₁, l₂, rfl, ?_⟩
      intro x hx
      rcases List.mem_cons.mp hx with rfl | hx
      · exact Bool.not_eq_true _ ▸ hpb
      · exact hl₁ x hx

/-! ### Concrete fixtures used by the witnesses -/

/-- A tracker whose searches return empty single pages and whose edit endpoint
acknowledges every request. -/
def phabW : Phab where
  projectSearch := fun _ => ⟨none, []⟩
  taskSearch := fun _ _ => ⟨none, []⟩
  edit := fun _ => ⟨some ⟨1, "PHID-TASK-1"⟩, [0, 1]⟩

/-- A ticket titled `X` assigned to groups `A` and `B`. -/
def taskAB : ManiphestTask :=
  { id := 7, phid := "PHID-TASK-7", name := "X", descriptionRaw := "D"
    projectPHIDs := ["A", "B"] }

/-- A ticket titled `X extra text` (a full-text hit that is not an exact
match), listed before `taskAB`. -/
def taskExtra : ManiphestTask :=
  { id := 8, phid := "PHID-TASK-8", name := "X extra text"
    descriptionRaw := "D", projectPHIDs := ["A", "B"] }

/-! ### C4, C5, C6, C7 -/

/-- C4: a candidate is returned by `find_task` only if every required group id
is among the ticket's assigned groups, and a candidate survives the filter
exactly when its title matches and its assigned groups contain the required
set. -/
theorem find_task_requires_group_superset
    (title : String) (phids : List String) (result : TaskSearchResult)
    (task : ManiphestTask)
    (hfound : find_task title phids result = .ok (some task)) :
    (∀ p ∈ phids, p ∈ task.projectPHIDs) ∧
      ∀ t : ManiphestTask,
        (taskMatches title phids t = true ↔
          t.name = title ∧ ∀ p ∈ phids, p ∈ t.projectPHIDs) := by
  have hiff : ∀ t : ManiphestTask,
      taskMatches title phids t = true ↔
        t.name = title ∧ ∀ p ∈ phids, p ∈ t.projectPHIDs := by
    intro t
    simp [taskMatches, List.all_eq_true, List.contains, List.elem_iff]
  refine ⟨?_, hiff⟩
  unfold find_task at hfound
  by_cases hcur : cursorTruthy result.after = true
  · simp [hcur] at hfound
  · rw [if_neg hcur] at hfound
    have hfind : result.data.find? (taskMatches title phids) = some task := by
      injection hfound
    exact ((hiff task).mp (List.find?_some hfind)).2

/-- Witness for C4: the ticket assigned to `{A, B}` survives with required set
`{A}`, and the filter characterization holds. -/
theorem find_task_requires_group_superset_witness :
    (∀ p ∈ ["A"], p ∈ taskAB.projectPHIDs) ∧
      ∀ t : ManiphestTask,
        (taskMatches "X" ["A"] t = true ↔
          t.name = "X" ∧ ∀ p ∈ ["A"], p ∈ t.projectPHIDs) :=
  find_task_requires_group_superset "X" ["A"] ⟨none, [taskAB]⟩ taskAB rfl

/-- C5: with a clean cursor, `find_task` returns exactly the first candidate
in result order whose title is byte-for-byte the requested title and whose
groups contain the required set: any returned candidate is such a first
passing candidate, a result list whose candidates all fail yields `none`, and
whenever the result list splits into failing candidates followed by a passing
one, that passing candidate is the one returned. -/
theorem find_task_first_exact_title_match
    (title : String) (phids : List String) (result : TaskSearchResult)
    (hcursor : cursorTruthy result.after = false) :
    (∀ task : ManiphestTask,
        find_task title phids result = .ok (some task) →
          task.name = title ∧ (∀ p ∈ phids, p ∈ task.projectPHIDs) ∧
            ∃ l₁ l₂, result.data = l₁ ++ task :: l₂ ∧
              ∀ x ∈ l₁, taskMatches title phids x = false) ∧
      ((∀ x ∈ result.data, taskMatches title phids x = false) →
        find_task title phids result = .ok none) ∧
      (∀ (l₁ : List ManiphestTask) (task : ManiphestTask)
          (l₂ : List ManiphestTask),
        result.data = l₁ ++ task :: l₂ →
        taskMatches title phids task = true →
        (∀ x ∈ l₁, taskMatches title phids x = false) →
        find_task title phids result = .ok (some task)) := by
  refine ⟨?_, ?_, ?_⟩
  · intro task hfound
    unfold find_task at hfound
    rw [if_neg (by simp [hcursor])] at hfound
    have hfind : result.data.find? (taskMatches title phids) = some task := by
      injection hfound
    obtain ⟨hmatch, l₁, l₂, hsplit, hmiss⟩ :=
      find?_some_split (taskMatches title phids) result.data task hfind
    have hm := hmatch
    simp [taskMatches, List.all_eq_true, List.contains, List.elem_iff] at hm
    exact ⟨hm.1, hm.2, l₁, l₂, hsplit, hmiss⟩
  · intro hnone
    unfold find_task
    rw [if_neg (by simp [hcursor])]
    have : result.data.find? (taskMatches title phids) = none :=
      List.find?_eq_none.mpr fun x hx => by simp [hnone x hx]
    rw [this]
  · intro l₁ task l₂ hsplit hmatch hfail
    unfold find_task
    rw [if_neg (by simp [hcursor]), hsplit]
    have h₁ : l₁.find? (taskMatches title phids) = none :=
      List.find?_eq_none.mpr fun x hx => by simp [hfail x hx]
    rw [List.find?_append, h₁, List.find?_cons_of_pos _ hmatch]
    rfl

/-- Witness for C5: with candidates `X extra text` then `X`, the exact-title
ticket is the one returned — the fuzzy hit listed before it fails the
filter. -/
theorem find_task_first_exact_title_match_witness :
    find_task "X" ["A"] ⟨none, [taskExtra, taskAB]⟩ = .ok (some taskAB) :=
  (find_task_first_exact_title_match "X" ["A"] ⟨none, [taskExtra, taskAB]⟩
    rfl).2.2 [taskExtra] taskAB [] rfl (by decide) (by decide)

/-- C6: a truthy `after` cursor makes both searches fail before any candidate
is examined — the error is raised whatever the returned data holds, and in
particular even when the returned first page contains an exact match (a
project with the requested name, a ticket passing both filters). -/
theorem pagination_cursor_checked_before_candidates
    (name title : String) (phids : List String)
    (rp : ProjectSearchResult) (rt : TaskSearchResult)
    (hp : cursorTruthy rp.after = true) (ht : cursorTruthy rt.after = true) :
    (find_project_phid name rp =
        .error ⟨"Unexpected 'after' cursor while searching for project " ++
          name⟩) ∧
      (find_task title phids rt =
        .error ⟨"Unexpected 'after' cursor while searching for task " ++
          title⟩) ∧
      ((∃ pr ∈ rp.data, pr.name = name) →
        find_project_phid name rp =
          .error ⟨"Unexpected 'after' cursor while searching for project " ++
            name⟩) ∧
      ((∃ t ∈ rt.data, taskMatches title phids t = true) →
        find_task title phids rt =
          .error ⟨"Unexpected 'after' cursor while searching for task " ++
            title⟩) := by
  have hproj : find_project_phid name rp =
      .error ⟨"Unexpected 'after' cursor while searching for project " ++
        name⟩ := by
    unfold find_project_phid
    rw [if_pos hp]
  have htask : find_task title phids rt =
      .error ⟨"Unexpected 'after' cursor while searching for task " ++
        title⟩ := by
    unfold find_task
    rw [if_pos ht]
  exact ⟨hproj, htask, fun _ => hproj, fun _ => htask⟩

/-- Witness for C6: both searches fail on a paginated response even though the
first page holds an exact match (discharged through the theorem's
even-when-a-candidate-matches conjuncts). -/
theorem pagination_cursor_checked_before_candidates_witness :
    find_project_phid "A" ⟨some "cursor-2", [⟨"A-PHID", "A"⟩]⟩ =
        .error ⟨"Unexpected 'after' cursor while searching for project A"⟩ ∧
      find_task "X" ["A"] ⟨some "cursor-2", [taskAB]⟩ =
        .error ⟨"Unexpected 'after' cursor while searching for task X"⟩ := by
  have h := pagination_cursor_checked_before_candidates "A" "X" ["A"]
    ⟨some "cursor-2", [⟨"A-PHID", "A"⟩]⟩ ⟨some "cursor-2", [taskAB]⟩ rfl rfl
  exact ⟨h.2.2.1 ⟨⟨"A-PHID", "A"⟩, by decide, rfl⟩,
    h.2.2.2 ⟨taskAB, by decide, by decide⟩⟩

/-- C7: `update_task` submits exactly one description-set transaction addressed
to the ticket's phid, and it fails precisely when the response echoes fewer
applied transactions than the one submitted. -/
theorem update_task_single_transaction_write_check
    (task : ManiphestTask) (description : String) :
    (update_request task description).transactions =
        [⟨"description", .str description⟩] ∧
      (update_request task description).objectIdentifier = some task.phid ∧
      ∀ result : EditResult,
        ((∃ e, update_task task description result = .error e) ↔
          result.transactions.length < 1) := by
  refine ⟨rfl, rfl, fun result => ?_⟩
  unfold update_task update_request
  by_cases h : result.transactions.length < 1
  · simp [h]
  · simp [h]

/-! ### C1: the three-way upsert decision of `process_task` -/

/-- C1: when every group name resolves and the ticket search succeeds,
`process_task` creates exactly once when no ticket is found, writes nothing
when the found ticket's raw description equals the desired one, and otherwise
sends exactly one update addressed to the found ticket's phid. -/
theorem process_task_three_way_upsert
    (phab : Phab) (title description : String)
    (projects phids phids' : List String)
    (hres : resolve_projects phab projects phids = .ok phids') :
    (find_task title phids' (phab.taskSearch title phids') = .ok none →
        (phab.edit (create_request title description phids')).object.isSome =
          true →
        process_task phab title description projects phids =
          (.ok .created, [create_request title description phids'])) ∧
      (∀ task : ManiphestTask,
        find_task title phids' (phab.taskSearch title phids') =
            .ok (some task) →
          task.descriptionRaw = description →
          process_task phab title description projects phids =
            (.ok .unchanged, [])) ∧
      (∀ task : ManiphestTask,
        find_task title phids' (phab.taskSearch title phids') =
            .ok (some task) →
          task.descriptionRaw ≠ description →
          1 ≤ (phab.edit (update_request task description)).transactions.length →
          process_task phab title description projects phids =
            (.ok .updated, [update_request task description])) := by
  refine ⟨?_, ?_, ?_⟩
  · intro hfound hobj
    simp only [process_task, hres, hfound, create_task, if_pos hobj]
  · intro task hfound hdesc
    simp only [process_task, hres, hfound]
    simp [hdesc]
  · intro task hfound hdesc hecho
    simp only [process_task, hres, hfound]
    rw [if_neg (by simp [hdesc])]
    have hlen : (update_request task description).transactions.length = 1 := rfl
    rw [update_task, if_neg (by rw [hlen]; omega)]

/-- Witness for C1: against an empty tracker, reconciling issues exactly the
one create request and reports the created outcome. -/
theorem process_task_three_way_upsert_witness :
    process_task phabW "T" "D" [] [] =
      (.ok .created, [create_request "T" "D" []]) :=
  (process_task_three_way_upsert phabW "T" "D" [] [] [] rfl).1 rfl rfl

/-! ### C3: all-or-nothing group resolution -/

/-- If some name in the list has no exact-name match in its search result (and
no project search paginates), the resolution loop fails with the
could-not-find error for a failing name, namely the first one. -/
theorem resolve_projects_error_of_unresolvable (phab : Phab)
    (hcur : ∀ name, cursorTruthy (phab.projectSearch name).after = false) :
    ∀ (projects acc : List String),
      (∃ n ∈ projects,
        ∀ pr ∈ (phab.projectSearch n).data, pr.name ≠ n) →
      ∃ m ∈ projects,
        (∀ pr ∈ (phab.projectSearch m).data, pr.name ≠ m) ∧
          resolve_projects phab projects acc =
            .error ⟨"Could not find project " ++ m⟩
  | [], acc, h => by simp at h
  | p :: rest, acc, h => by
    by_cases hfind :
        (phab.projectSearch p).data.find? (fun pr => pr.name == p) = none
    · refine ⟨p, List.mem_cons_self p rest, ?_, ?_⟩
      · intro pr hpr
        have := List.find?_eq_none.mp hfind pr hpr
        simpa using this
      · unfold resolve_projects find_project_phid
        rw [if_neg (by simp [hcur p]), hfind]
    · obtain ⟨pr, hpr⟩ := Option.ne_none_iff_exists'.mp hfind
      obtain ⟨n, hn, hnone⟩ := h
      have hnrest : n ∈ rest := by
        rcases List.mem_cons.mp hn with rfl | hmem
        · exact absurd (List.find?_some hpr)
            (by simpa using hnone pr (List.mem_of_find?_eq_some hpr))
        · exact hmem
      obtain ⟨m, hm, hmnone, hres⟩ :=
        resolve_projects_error_of_unresolvable phab hcur rest
          (acc ++ [pr.phid]) ⟨n, hnrest, hnone⟩
      refine ⟨m, List.mem_cons_of_mem p hm, hmnone, ?_⟩
      unfold resolve_projects find_project_phid
      rw [if_neg (by simp [hcur p]), hpr]
      exact hres

/-- C3: if any requested group name has no exact-name match among the tracker's
candidates, `process_task` performs no write at all and fails with the error
naming a failing group. -/
theorem resolve_failure_aborts_without_writes
    (phab : Phab) (title description : String)
    (projects phids : List String)
    (hcur : ∀ name, cursorTruthy (phab.projectSearch name).after = false)
    (badName : String) (hmem : badName ∈ projects)
    (hbad : ∀ pr ∈ (phab.projectSearch badName).data, pr.name ≠ badName) :
    ∃ m ∈ projects,
      (∀ pr ∈ (phab.projectSearch m).data, pr.name ≠ m) ∧
        process_task phab title description projects phids =
          (.error ⟨"Could not find project " ++ m⟩, []) := by
  obtain ⟨m, hm, hmnone, hres⟩ :=
    resolve_projects_error_of_unresolvable phab hcur projects phids
      ⟨badName, hmem, hbad⟩
  refine ⟨m, hm, hmnone, ?_⟩
  unfold process_task
  rw [hres]

/-- Witness for C3: requesting the nonexistent group `foobar` yields the
could-not-find error with no write issued. -/
theorem resolve_failure_aborts_without_writes_witness :
    ∃ m ∈ ["foobar"],
      (∀ pr ∈ (phabW.projectSearch m).data, pr.name ≠ m) ∧
        process_task phabW "T" "D" ["foobar"] [] =
          (.error ⟨"Could not find project " ++ m⟩, []) :=
  resolve_failure_aborts_without_writes phabW "T" "D" ["foobar"] []
    (fun _ => rfl) "foobar" (List.mem_cons_self "foobar" [])
    (by intro pr hpr; simp [phabW] at hpr)

/-! ### C2: idempotence against a model tracker -/

/-- Modelled from the spec: the external tracker's state — its groups, its
open tickets, and a counter for fresh ticket identifiers. The tracker is an
external collaborator (its code is not part of this repository); this model
follows the spec's outbound interface: each search returns a single page of
candidates and each edit either creates a ticket from the submitted
transactions or updates the addressed ticket's description. -/
structure TrackerState where
  projects : List Project
  tasks : List ManiphestTask
  nextId : Nat

/-- The string value of the first transaction of a given type, if any. -/
def txStr (txs : List Transaction) (ty : String) : Option String :=
  match txs.find? (fun t => t.type == ty) with
  | some ⟨_, .str s⟩ => some s
  | _ => none

/-- The string-list value of the first transaction of a given type, if any. -/
def txStrs (txs : List Transaction) (ty : String) : Option (List String) :=
  match txs.find? (fun t => t.type == ty) with
  | some ⟨_, .strs l⟩ => some l
  | _ => none

/-- Modelled from the spec: the ticket a create edit produces — title,
description and group assignment taken from the submitted transactions, with
a fresh identifier. -/
def newTaskOf (st : TrackerState) (txs : List Transaction) : ManiphestTask :=
  { id := st.nextId
    phid := "PHID-TASK-" ++ toString st.nextId
    name := (txStr txs "title").getD ""
    descriptionRaw := (txStr txs "description").getD ""
    projectPHIDs := (txStrs txs "projects.add").getD [] }

/-- Modelled from the spec: the tracker's edit endpoint. Without an
`objectIdentifier` it creates a ticket and answers with the new object; with
one it rewrites the addressed ticket's description. In both cases it echoes
the full list of applied transactions. -/
def stateEdit (st : TrackerState) (req : EditRequest) :
    EditResult × TrackerState :=
  match req.objectIdentifier with
  | none =>
    let task := newTaskOf st req.transactions
    (⟨some ⟨st.nextId, task.phid⟩, List.range req.transactions.length⟩,
      { st with tasks := st.tasks ++ [task], nextId := st.nextId + 1 })
  | some phid =>
    (⟨none, List.range req.transactions.length⟩,
      { st with
          tasks := st.tasks.map fun t =>
            if t.phid == phid then
              { t with descriptionRaw :=
                  (txStr req.transactions "description").getD t.descriptionRaw }
            else t })

/-- The read-only interface a single `process_task` call sees over a model
tracker state: both searches return one clean page with every candidate. -/
def phabOf (st : TrackerState) : Phab where
  projectSearch := fun _ => ⟨none, st.projects⟩
  taskSearch := fun _ _ => ⟨none, st.tasks⟩
  edit := fun req => (stateEdit st req).1

/-- The state reached after the tracker has applied one edit request. -/
def applyWrite (st : TrackerState) (req : EditRequest) : TrackerState :=
  (stateEdit st req).2

/-- One reconcile call against the model tracker: `process_task` runs against
the pre-state's responses and the issued writes (at most one, and always the
final action) are then applied to produce the post-state. -/
def runReconcile (st : TrackerState) (title description : String)
    (projects phids : List String) :
    (Except Error Outcome × List EditRequest) × TrackerState :=
  let r := process_task (phabOf st) title description projects phids
  (r, r.2.foldl applyWrite st)

/-- Group resolution only reads the tracker's project list, so states with the
same projects resolve identically. -/
theorem resolve_projects_phabOf_projects_eq (st₁ st₂ : TrackerState)
    (h : st₁.projects = st₂.projects) :
    ∀ (l acc : List String),
      resolve_projects (phabOf st₁) l acc = resolve_projects (phabOf st₂) l acc
  | [], _ => rfl
  | p :: rest, acc => by
    have hps : (phabOf st₁).projectSearch p = (phabOf st₂).projectSearch p := by
      simp [phabOf, h]
    unfold resolve_projects
    rw [hps]
    cases find_project_phid p ((phabOf st₂).projectSearch p) with
    | error e => rfl
    | ok phid =>
      exact resolve_projects_phabOf_projects_eq st₁ st₂ h rest (acc ++ [phid])

/-- Every member of a list passes the `contains` check against that list. -/
theorem all_contains_self (l : List String) :
    (l.all fun p => l.contains p) = true := by
  simp [List.all_eq_true, List.contains, List.elem_iff]

/-- The ticket created from `create_transactions` matches the very
`(title, phids)` filter that just failed to find one. -/
theorem newTaskOf_create_matches (st : TrackerState)
    (title description : String) (phids : List String) :
    taskMatches title phids
      (newTaskOf st (create_transactions title description phids)) = true := by
  cases phids with
  | nil => simp [taskMatches, newTaskOf, txStr, txStrs, create_transactions,
      List.find?]
  | cons p ps =>
    simp only [taskMatches, newTaskOf, txStr, txStrs, create_transactions,
      List.isEmpty_cons, Bool.false_eq_true, if_false, List.cons_append,
      List.nil_append, List.find?]
    simp [List.all_eq_true, List.contains, List.elem_iff]
    exact fun x hx => Or.inr hx

/-- C2: against a model tracker in which every requested group name resolves
and no open ticket yet matches, reconciling twice with identical arguments
yields `Created` (with exactly the one create write) and then `Unchanged`
(with no write and an unchanged tracker state). -/
theorem reconcile_idempotent_created_then_unchanged
    (st : TrackerState) (title description : String)
    (projects phids phids' : List String)
    (hres : resolve_projects (phabOf st) projects phids = .ok phids')
    (hnone : st.tasks.find? (taskMatches title phids') = none) :
    (runReconcile st title description projects phids).1 =
        (.ok .created, [create_request title description phids']) ∧
      (runReconcile (runReconcile st title description projects phids).2
          title description projects phids).1 =
        (.ok .unchanged, []) ∧
      (runReconcile (runReconcile st title description projects phids).2
          title description projects phids).2 =
        (runReconcile st title description projects phids).2 := by
  have hfind1 : find_task title phids' ((phabOf st).taskSearch title phids') =
      .ok none := by
    simp [phabOf, find_task, cursorTruthy, hnone]
  have hcreate :
      create_task ((phabOf st).edit (create_request title description phids')) =
        .ok () := by
    simp [phabOf, stateEdit, create_request, create_task]
  have h1 : process_task (phabOf st) title description projects phids =
      (.ok .created, [create_request title description phids']) := by
    simp only [process_task, hres, hfind1, hcreate]
  have hstate : (runReconcile st title description projects phids).2 =
      applyWrite st (create_request title description phids') := by
    simp [runReconcile, h1]
  set st' := applyWrite st (create_request title description phids') with hst'
  have hproj : st'.projects = st.projects := by
    simp [hst', applyWrite, stateEdit, create_request]
  have htasks : st'.tasks =
      st.tasks ++ [newTaskOf st (create_transactions title description phids')] := by
    simp [hst', applyWrite, stateEdit, create_request]
  have hres2 : resolve_projects (phabOf st') projects phids = .ok phids' := by
    rw [resolve_projects_phabOf_projects_eq st' st hproj]
    exact hres
  have hfind2 : find_task title phids' ((phabOf st').taskSearch title phids') =
      .ok (some (newTaskOf st (create_transactions title description phids'))) := by
    simp [phabOf, find_task, cursorTruthy, htasks, List.find?_append, hnone,
      List.find?, newTaskOf_create_matches]
  have hdesc :
      (newTaskOf st (create_transactions title description phids')).descriptionRaw =
        description := rfl
  have h2 : process_task (phabOf st') title description projects phids =
      (.ok .unchanged, []) := by
    simp only [process_task, hres2, hfind2, hdesc, beq_self_eq_true, if_true]
  refine ⟨?_, ?_, ?_⟩
  · simp [runReconcile, h1]
  · rw [hstate]
    simp [runReconcile, h2]
  · rw [hstate]
    simp [runReconcile, h2]

/-- Witness for C2: reconciling twice against an empty model tracker creates
once and then leaves everything unchanged. -/
theorem reconcile_idempotent_created_then_unchanged_witness :
    (runReconcile ⟨[], [], 0⟩ "T" "D" [] []).1 =
        (.ok .created, [create_request "T" "D" []]) ∧
      (runReconcile (runReconcile ⟨[], [], 0⟩ "T" "D" [] []).2
          "T" "D" [] []).1 = (.ok .unchanged, []) ∧
      (runReconcile (runReconcile ⟨[], [], 0⟩ "T" "D" [] []).2
          "T" "D" [] []).2 = (runReconcile ⟨[], [], 0⟩ "T" "D" [] []).2 :=
  reconcile_idempotent_created_then_unchanged ⟨[], [], 0⟩ "T" "D" [] [] []
    rfl rfl

/-! ### String and key comparison, as Python's `sorted` uses it

Python compares strings by code point and lists lexicographically. Executable
Bool comparators are used so that concrete instances reduce inside the
kernel. -/

/-- Code-point-lexicographic `<` on character lists. -/
def charListLt : List Char → List Char → Bool
  | [], [] => false
  | [], _ :: _ => true
  | _ :: _, [] => false
  | a :: as, b :: bs =>
    if a < b then true else if b < a then false else charListLt as bs

theorem charListLt_irrefl : ∀ x : List Char, charListLt x x = false
  | [] => rfl
  | a :: as => by simp [charListLt, lt_irrefl, charListLt_irrefl as]

theorem charListLt_asymm :
    ∀ x y, charListLt x y = true → charListLt y x = false
  | [], [], h => by simp [charListLt] at h
  | [], _ :: _, _ => by simp [charListLt]
  | _ :: _, [], h => by simp [charListLt] at h
  | a :: as, b :: bs, h => by
    simp only [charListLt] at h ⊢
    rcases lt_trichotomy a b with hab | rfl | hab
    · simp [hab, lt_asymm hab]
    · simpa [lt_irrefl] using charListLt_asymm as bs (by simpa [lt_irrefl] using h)
    · simp [hab, lt_asymm hab] at h

theorem charListLt_conn :
    ∀ x y, charListLt x y = false → charListLt y x = false → x = y
  | [], [], _, _ => rfl
  | [], _ :: _, h, _ => by simp [charListLt] at h
  | _ :: _, [], _, h => by simp [charListLt] at h
  | a :: as, b :: bs, h₁, h₂ => by
    simp only [charListLt] at h₁ h₂
    rcases lt_trichotomy a b with hab | rfl | hab
    · simp [hab] at h₁
    · simp only [lt_irrefl, if_false] at h₁ h₂
      rw [charListLt_conn as bs h₁ h₂]
    · simp [hab] at h₂

theorem charListLt_trans :
    ∀ x y z, charListLt x y = true → charListLt y z = true →
      charListLt x z = true
  | [], [], _, h₁, _ => by simp [charListLt] at h₁
  | _ :: _, [], _, h₁, _ => by simp [charListLt] at h₁
  | [], _ :: _, [], _, h₂ => by simp [charListLt] at h₂
  | [], _ :: _, _ :: _, _, _ => rfl
  | _ :: _, _ :: _, [], _, h₂ => by simp [charListLt] at h₂
  | a :: as, b :: bs, c :: cs, h₁, h₂ => by
    simp only [charListLt] at h₁ h₂ ⊢
    rcases lt_trichotomy a b with hab | rfl | hab
    · rcases lt_trichotomy b c with hbc | rfl | hbc
      · simp [lt_trans hab hbc]
      · simp [hab]
      · simp [hbc, lt_asymm hbc] at h₂
    · rcases lt_trichotomy a c with hac | rfl | hac
      · simp [hac]
      · simp only [lt_irrefl, if_false] at h₁ h₂ ⊢
        exact charListLt_trans as bs cs h₁ h₂
      · simp [hac, lt_asymm hac] at h₂
    · simp [hab, lt_asymm hab] at h₁

/-- Python's `<` on strings: code-point-lexicographic comparison. -/
def strLt (a b : String) : Bool :=
  charListLt a.data b.data

theorem strLt_irrefl (a : String) : strLt a a = false :=
  charListLt_irrefl a.data

theorem strLt_asymm {a b : String} (h : strLt a b = true) :
    strLt b a = false :=
  charListLt_asymm a.data b.data h

theorem strLt_conn {a b : String} (h₁ : strLt a b = false)
    (h₂ : strLt b a = false) : a = b := by
  cases a with
  | mk da =>
    cases b with
    | mk db => exact congrArg String.mk (charListLt_conn da db h₁ h₂)

theorem strLt_trans {a b c : String} (h₁ : strLt a b = true)
    (h₂ : strLt b c = true) : strLt a c = true :=
  charListLt_trans a.data b.data c.data h₁ h₂

/-- Python's `<=` on lists of strings, the comparison `sorted` performs on
the `key=sorted(a["labels"].values())` sort keys. -/
def strListLe : List String → List String → Bool
  | [], _ => true
  | _ :: _, [] => false
  | a :: as, b :: bs =>
    if strLt a b then true else if strLt b a then false else strListLe as bs

theorem strListLe_total : ∀ x y, strListLe x y = true ∨ strListLe y x = true
  | [], _ => Or.inl rfl
  | _ :: _, [] => Or.inr rfl
  | a :: as, b :: bs => by
    simp only [strListLe]
    cases hab : strLt a b with
    | true => exact Or.inl (by simp)
    | false =>
      cases hba : strLt b a with
      | true => exact Or.inr (by simp)
      | false =>
        rcases strListLe_total as bs with h | h
        · exact Or.inl (by simp [hab, hba, h])
        · exact Or.inr (by simp [hab, hba, h])

theorem strListLe_antisymm :
    ∀ x y, strListLe x y = true → strListLe y x = true → x = y
  | [], [], _, _ => rfl
  | [], _ :: _, _, h₂ => by simp [strListLe] at h₂
  | _ :: _, [], h₁, _ => by simp [strListLe] at h₁
  | a :: as, b :: bs, h₁, h₂ => by
    simp only [strListLe] at h₁ h₂
    cases hab : strLt a b with
    | true => simp [strLt_asymm hab, hab] at h₂
    | false =>
      cases hba : strLt b a with
      | true => simp [hab, hba] at h₁
      | false =>
        simp only [hab, hba, if_false] at h₁ h₂
        rw [strLt_conn hab hba, strListLe_antisymm as bs h₁ h₂]

theorem strListLe_trans :
    ∀ x y z, strListLe x y = true → strListLe y z = true →
      strListLe x z = true
  | [], _, _, _, _ => rfl
  | _ :: _, [], _, h₁, _ => by simp [strListLe] at h₁
  | _ :: _, _ :: _, [], _, h₂ => by simp [strListLe] at h₂
  | a :: as, b :: bs, c :: cs, h₁, h₂ => by
    simp only [strListLe] at h₁ h₂ ⊢
    cases hab : strLt a b with
    | true =>
      cases hbc : strLt b c with
      | true => simp [strLt_trans hab hbc]
      | false =>
        cases hcb : strLt c b with
        | true => simp [hab, hbc, hcb] at h₂
        | false => simp [(strLt_conn hbc hcb) ▸ hab]
    | false =>
      cases hba : strLt b a with
      | true => simp [hab, hba] at h₁
      | false =>
        obtain rfl : a = b := strLt_conn hab hba
        simp only [hab, hba] at h₁
        simp only [Bool.false_eq_true, if_false] at h₁
        cases hbc : strLt a c with
        | true => simp [hbc]
        | false =>
          cases hcb : strLt c a with
          | true => simp [hbc, hcb] at h₂
          | false =>
            simp only [hbc, hcb, Bool.false_eq_true, if_false] at h₂ ⊢
            exact strListLe_trans as bs cs h₁ h₂

/-! ### The webhook handler: request data model -/

/-- A decoded JSON value of the request body (numbers as integers suffice for
the fields this program touches). -/
inductive Json where
  | null
  | bool (b : Bool)
  | num (n : Int)
  | str (s : String)
  | arr (elems : List Json)
  | obj (fields : List (String × Json))

instance : Inhabited Json := ⟨Json.null⟩

/-- Python `data[key]` on a decoded JSON object: the first binding of the key
(JSON objects hold each key once). A non-object or a missing key gives `none`,
which the handler surfaces as an uncaught exception (HTTP 500). -/
def jsonLookup : Json → String → Option Json
  | .obj fields, key => List.lookup key fields
  | _, _ => none

/-- `data["version"] != "4"` — only the literal string `"4"` passes (the JSON
number `4` does not). -/
def isVersion4 : Json → Bool
  | .str s => s == "4"
  | _ => false

/-- `a["labels"].values()` with the requirement that every value is a string
(label values are strings in the Alertmanager payload; Python would fail the
request on an unsortable mix). Values come in object order. -/
def labelValues : Json → Option (List String)
  | .obj fields => fields.mapM fun kv =>
      match kv.2 with
      | .str s => some s
      | _ => none
  | _ => none

/-- The Prop form of string `<=` (`¬ b < a`), used to sort label values. -/
def strLeRel (a b : String) : Prop := strLt b a = false

instance : DecidableRel strLeRel := fun a b =>
  inferInstanceAs (Decidable (strLt b a = false))

/-- The sort key of one alert: `sorted(a["labels"].values())`; `none` when the
alert is malformed (Python raises, failing the whole request). -/
def alertKeyOpt (a : Json) : Option (List String) :=
  match jsonLookup a "labels" with
  | some labels => (labelValues labels).map (List.insertionSort strLeRel)
  | none => none

/-- The sort key with a default, used once every key is known to exist. -/
def alertKeyD (a : Json) : List String :=
  (alertKeyOpt a).getD []

/-- The comparison `sorted(data["alerts"], key=...)` performs: keys compared
by Python's list `<=`. -/
def keyLe (x y : List String × Json) : Prop := strListLe x.1 y.1 = true

instance : DecidableRel keyLe := fun x y =>
  inferInstanceAs (Decidable (strListLe x.1 y.1 = true))

instance : IsTotal (List String × Json) keyLe :=
  ⟨fun a b => strListLe_total a.1 b.1⟩

instance : IsTrans (List String × Json) keyLe :=
  ⟨fun a b c => strListLe_trans a.1 b.1 c.1⟩

/-- `sorted(data["alerts"], key=lambda a: sorted(a["labels"].values()))`:
every key is computed, then a stable ascending sort by key runs (insertion
sort is stable, like Python's sort). `none` models the Python exception for a
malformed alert. -/
def sortAlerts (alerts : List Json) : Option (List Json) :=
  if alerts.all fun a => (alertKeyOpt a).isSome then
    some ((List.insertionSort keyLe
      (alerts.map fun a => (alertKeyD a, a))).map Prod.snd)
  else none

/-- Python dict assignment `data["alerts"] = ...` on an existing key: replace
the value in place, keeping insertion order. -/
def setField : List (String × Json) → String → Json → List (String × Json)
  | [], _, _ => []
  | (k', v') :: rest, k, v =>
    if k' == k then (k', v) :: rest else (k', v') :: setField rest k v

/-- The alert-sorting step of the handler:
`if "alerts" in data: data["alerts"] = sorted(...)`. `none` models a Python
exception (a non-array `alerts` value or a malformed alert), surfaced as a
500 response. -/
def prepareFields (fields : List (String × Json)) :
    Option (List (String × Json)) :=
  match List.lookup "alerts" fields with
  | none => some fields
  | some (.arr alerts) =>
    (sortAlerts alerts).map fun sorted => setField fields "alerts" (.arr sorted)
  | some _ => none

/-! ### The webhook handler: the `/alerts` route -/

/-- The Jinja2 template for the task description (`TPL_DESCRIPTION`). -/
def TPL_DESCRIPTION : String :=
  "\n" ++
    "== Common information\n" ++
    "\n" ++
    "\x7b% for k, v in commonAnnotations|dictsort -%\x7d\n" ++
    "* **\x7b\x7b k \x7d\x7d**: \x7b\x7b v \x7d\x7d\n" ++
    "\x7b% endfor %\x7d\n" ++
    "\x7b% for k, v in commonLabels|dictsort -%\x7d\n" ++
    "* **\x7b\x7b k \x7d\x7d**: \x7b\x7b v \x7d\x7d\n" ++
    "\x7b% endfor %\x7d\n" ++
    "\n" ++
    "== Firing alerts\n" ++
    "\x7b% for a in alerts if a.status == \x27firing\x27 -%\x7d\n" ++
    "\n" ++
    "---\n" ++
    "\n" ++
    "  \x7b% for k, v in a.annotations|dictsort -%\x7d\n" ++
    "* **\x7b\x7b k \x7d\x7d**: \x7b\x7b v \x7d\x7d\n" ++
    "  \x7b% endfor %\x7d\n" ++
    "  \x7b% for k, v in a.labels|dictsort -%\x7d\n" ++
    "* **\x7b\x7b k \x7d\x7d**: \x7b\x7b v \x7d\x7d\n" ++
    "  \x7b% endfor -%\x7d\n" ++
    "* [Source](\x7b\x7b a.generatorURL \x7d\x7d)\n" ++
    "\n" ++
    "\x7b% endfor %\x7d\n" ++
    ""

/-- Deduplicate keeping first occurrences: the content of
`set(request.args.keys())` as an ordered list. -/
def dedupKeys (l : List String) : List String :=
  l.foldl (fun acc k => if acc.contains k then acc else acc ++ [k]) []

/-- `set(request.args.keys()) - {"project", "phid", "title"}`: the unexpected
query parameter names. -/
def unknownArgs (args : List (String × String)) : List String :=
  dedupKeys ((args.map Prod.fst).filter fun k =>
    !(["project", "phid", "title"].contains k))

/-- `request.args.getlist(key)`: all values of a query parameter, in order. -/
def getList (args : List (String × String)) (key : String) : List String :=
  args.filterMap fun kv => if kv.1 == key then some kv.2 else none

/-- The response-body classes of the `/alerts` handler (the exact Python
formatting of each body is not modelled, only which branch produced it and
what data it reports). -/
inductive HBody where
  | badArgs (names : List String)
  | badJson
  | internal
  | badVersion
  | badTemplate
  | trackerError
  | okBody
  deriving Repr, DecidableEq

/-- The arguments of the single `process_task` call of a request. -/
structure EngineArgs where
  title : String
  description : String
  projects : List String
  phids : List String
  deriving Repr, DecidableEq

/-- The observable effect of one `POST /alerts` request: status code, response
class, the engine invocation when `process_task` was reached, and the tracker
writes issued. -/
structure HandlerOutcome where
  status : Nat
  body : HBody
  engineCall : Option EngineArgs
  writes : List EditRequest
  deriving Repr, DecidableEq

/-- The tail of the handler after the version check and the alerts sort:
title/description rendering and the `process_task` call. The template engine
is the external Jinja2 collaborator, passed in as `render` (template, data) —
a title `TemplateError` yields 400; a description rendering error is uncaught
(500). -/
def handlerRender (render : String → Json → Except String String)
    (phab : Phab) (tplDefault : String) (args : List (String × String))
    (fields : List (String × Json)) : HandlerOutcome :=
  let tpl := match List.lookup "title" args with
    | some t => t
    | none => tplDefault
  match render tpl (.obj fields) with
  | .error _ => ⟨400, .badTemplate, none, []⟩
  | .ok title =>
    match render TPL_DESCRIPTION (.obj fields) with
    | .error _ => ⟨500, .internal, none, []⟩
    | .ok description =>
      let projects := getList args "project"
      let phids := getList args "phid"
      match process_task phab title description projects phids with
      | (.error _, writes) =>
        ⟨500, .trackerError, some ⟨title, description, projects, phids⟩, writes⟩
      | (.ok _, writes) =>
        ⟨200, .okBody, some ⟨title, description, projects, phids⟩, writes⟩

/-- The `/alerts` route: reject unknown query parameters before touching the
body, parse the body (`none` models an unparseable body), check
`data["version"]`, sort the alerts, render, reconcile. -/
def alertsHandler (render : String → Json → Except String String)
    (phab : Phab) (tplDefault : String) (args : List (String × String))
    (body : Option Json) : HandlerOutcome :=
  let unknown := unknownArgs args
  if unknown.isEmpty then
    match body with
    | none => ⟨400, .badJson, none, []⟩
    | some data =>
      match data with
      | .obj fields =>
        match List.lookup "version" fields with
        | none => ⟨500, .internal, none, []⟩
        | some v =>
          if isVersion4 v then
            match prepareFields fields with
            | none => ⟨500, .internal, none, []⟩
            | some fields' => handlerRender render phab tplDefault args fields'
          else ⟨400, .badVersion, none, []⟩
      | _ => ⟨500, .internal, none, []⟩
  else ⟨400, .badArgs unknown, none, []⟩

/-! ### C8 and C9: request validation -/

/-- C8: any unexpected query parameter is rejected with a 400 naming the
offending parameters, before the body is even parsed — for every body,
valid or not, and with no tracker interaction. -/
theorem alerts_unknown_args_rejected_before_body
    (render : String → Json → Except String String) (phab : Phab)
    (tplDefault : String) (args : List (String × String)) (body : Option Json)
    (h : unknownArgs args ≠ []) :
    alertsHandler render phab tplDefault args body =
      ⟨400, .badArgs (unknownArgs args), none, []⟩ := by
  unfold alertsHandler
  rw [if_neg (by simpa [List.isEmpty_iff] using h)]

/-- Witness for C8: a request with the unknown parameter `proj` is rejected
with the parameter named, whatever tracker and renderer are behind the
handler, for an absent (invalid) body. -/
theorem alerts_unknown_args_rejected_before_body_witness :
    alertsHandler (fun _ _ => .ok "t") phabW "tpl" [("proj", "x")] none =
      ⟨400, .badArgs ["proj"], none, []⟩ :=
  alerts_unknown_args_rejected_before_body (fun _ _ => .ok "t") phabW "tpl"
    [("proj", "x")] none (by decide)

/-- C9: with only known query parameters, a body whose `version` field is
anything but the literal string `"4"` is rejected with a 400 and no tracker
interaction. -/
theorem alerts_version_mismatch_rejected
    (render : String → Json → Except String String) (phab : Phab)
    (tplDefault : String) (args : List (String × String))
    (fields : List (String × Json)) (v : Json)
    (hargs : unknownArgs args = [])
    (hv : List.lookup "version" fields = some v)
    (hne : isVersion4 v = false) :
    alertsHandler render phab tplDefault args (some (.obj fields)) =
      ⟨400, .badVersion, none, []⟩ := by
  unfold alertsHandler
  rw [if_pos (by simp [hargs])]
  simp [hv, hne]

/-- Witness for C9: `version` as the JSON number `4` is rejected with 400 and
no tracker call. -/
theorem alerts_version_mismatch_rejected_witness :
    alertsHandler (fun _ _ => .ok "t") phabW "tpl" []
        (some (.obj [("version", .num 4)])) =
      ⟨400, .badVersion, none, []⟩ :=
  alerts_version_mismatch_rejected (fun _ _ => .ok "t") phabW "tpl" []
    [("version", .num 4)] (.num 4) rfl rfl rfl

/-! ### C10: alert order and the description sort -/

/-- `all` is invariant under permutation. -/
theorem perm_all_eq {α : Type} {l₁ l₂ : List α} (h : l₁.Perm l₂)
    (f : α → Bool) : l₁.all f = l₂.all f := by
  have hiff : (l₁.all f = true) ↔ (l₂.all f = true) := by
    simp only [List.all_eq_true]
    exact ⟨fun hh x hx => hh x (h.mem_iff.mpr hx),
      fun hh x hx => hh x (h.mem_iff.mp hx)⟩
  cases hx : l₁.all f <;> cases hy : l₂.all f <;> simp_all

/-- Two sorted permutations of a keyed list with pairwise-distinct keys are
equal: the sort result is determined by the multiset of entries. -/
theorem insertionSorted_unique :
    ∀ (s₁ s₂ : List (List String × Json)), s₁.Perm s₂ →
      s₁.Sorted keyLe → s₂.Sorted keyLe → (s₁.map Prod.fst).Nodup →
      s₁ = s₂
  | [], s₂, hp, _, _, _ => (hp.symm.eq_nil).symm
  | _ :: _, [], hp, _, _, _ => absurd hp.eq_nil (by simp)
  | a :: t₁, b :: t₂, hp, hs₁, hs₂, hnd => by
    by_cases hab : a = b
    · subst hab
      have ht : t₁.Perm t₂ := hp.cons_inv
      have h0 : (a.1 :: t₁.map Prod.fst).Nodup := by simpa using hnd
      have htail := insertionSorted_unique t₁ t₂ ht hs₁.of_cons hs₂.of_cons
        (List.nodup_cons.mp h0).2
      rw [htail]
    · exfalso
      have hbmem : b ∈ a :: t₁ := hp.mem_iff.mpr (List.mem_cons_self b t₂)
      have hbt₁ : b ∈ t₁ := by
        rcases List.mem_cons.mp hbmem with h | h
        · exact absurd h.symm hab
        · exact h
      have hamem : a ∈ b :: t₂ := hp.mem_iff.mp (List.mem_cons_self a t₁)
      have hat₂ : a ∈ t₂ := by
        rcases List.mem_cons.mp hamem with h | h
        · exact absurd h hab
        · exact h
      have h₁ : keyLe a b := List.rel_of_sorted_cons hs₁ b hbt₁
      have h₂ : keyLe b a := List.rel_of_sorted_cons hs₂ a hat₂
      have hk : a.1 = b.1 := strListLe_antisymm a.1 b.1 h₁ h₂
      have h0 : (a.1 :: t₁.map Prod.fst).Nodup := by simpa using hnd
      have hhead : a.1 ∉ t₁.map Prod.fst := (List.nodup_cons.mp h0).1
      exact hhead (by rw [hk]; exact List.mem_map_of_mem Prod.fst hbt₁)

/-- Sorting the alerts is order-independent when the sort keys are pairwise
distinct: any permutation of the input produces the same sorted output. -/
theorem sortAlerts_perm_eq (l₁ l₂ : List Json) (hperm : l₁.Perm l₂)
    (hkeys : (l₁.map alertKeyD).Nodup) :
    sortAlerts l₁ = sortAlerts l₂ := by
  unfold sortAlerts
  have hall : (l₁.all fun a => (alertKeyOpt a).isSome) =
      (l₂.all fun a => (alertKeyOpt a).isSome) := perm_all_eq hperm _
  rw [← hall]
  by_cases hsome : (l₁.all fun a => (alertKeyOpt a).isSome) = true
  · rw [if_pos hsome, if_pos hsome]
    have hmapperm := hperm.map fun a => (alertKeyD a, a)
    have hs : List.insertionSort keyLe (l₁.map fun a => (alertKeyD a, a)) =
        List.insertionSort keyLe (l₂.map fun a => (alertKeyD a, a)) := by
      apply insertionSorted_unique
      · exact (List.perm_insertionSort keyLe _).trans
          (hmapperm.trans (List.perm_insertionSort keyLe _).symm)
      · exact List.sorted_insertionSort keyLe _
      · exact List.sorted_insertionSort keyLe _
      · have hfst :
            (((List.insertionSort keyLe
                (l₁.map fun a => (alertKeyD a, a))).map Prod.fst).Perm
              (l₁.map alertKeyD)) := by
          have hmp :=
            (List.perm_insertionSort keyLe
              (l₁.map fun a => (alertKeyD a, a))).map Prod.fst
          simpa [List.map_map, Function.comp] using hmp
        exact hfst.nodup_iff.mpr hkeys
    rw [hs]
  · rw [if_neg hsome, if_neg hsome]

/-- Replacing one key leaves every other key's lookup unchanged. -/
theorem lookup_setField_ne (fields : List (String × Json)) (k k' : String)
    (v : Json) (h : k' ≠ k) :
    List.lookup k' (setField fields k v) = List.lookup k' fields := by
  induction fields with
  | nil => rfl
  | cons kv rest ih =>
    obtain ⟨k₀, v₀⟩ := kv
    simp only [setField]
    cases hk : k₀ == k with
    | true =>
      have : k₀ = k := by simpa using hk
      subst this
      simp [List.lookup, show (k' == k₀) = false by simpa using h]
    | false =>
      simp only [Bool.false_eq_true, if_false, List.lookup]
      cases hk' : k' == k₀ with
      | true => rfl
      | false => exact ih

/-- Replacing an existing key makes its lookup return the new value. -/
theorem lookup_setField_self (fields : List (String × Json)) (k : String)
    (v : Json) (h : (List.lookup k fields).isSome = true) :
    List.lookup k (setField fields k v) = some v := by
  induction fields with
  | nil => simp [List.lookup] at h
  | cons kv rest ih =>
    obtain ⟨k₀, v₀⟩ := kv
    simp only [setField]
    cases hk : k₀ == k with
    | true =>
      have : k₀ = k := by simpa using hk
      subst this
      simp [List.lookup]
    | false =>
      have hne : (k == k₀) = false := by
        have : ¬ k₀ = k := by simpa using hk
        simpa using fun hh => this hh.symm
      simp only [Bool.false_eq_true, if_false, List.lookup, hne]
      simp only [List.lookup, hne, Bool.false_eq_true, if_false] at h
      exact ih h

/-- Overwriting the same key twice keeps only the second value. -/
theorem setField_setField (fields : List (String × Json)) (k : String)
    (v v' : Json) :
    setField (setField fields k v) k v' = setField fields k v' := by
  induction fields with
  | nil => rfl
  | cons kv rest ih =>
    obtain ⟨k₀, v₀⟩ := kv
    simp only [setField]
    cases hk : k₀ == k with
    | true => simp [setField, hk]
    | false => simp [setField, hk, ih]

/-- C10 (amended): two `POST /alerts` payloads identical except for the order
of the alerts array are handled identically — same rendered strings, same
engine invocation, same writes — provided the alerts' sort keys (each alert's
sorted label values) are pairwise distinct. -/
theorem alerts_order_invariant_distinct_keys
    (render : String → Json → Except String String) (phab : Phab)
    (tplDefault : String) (args : List (String × String))
    (fields : List (String × Json)) (l₁ l₂ : List Json)
    (halerts : List.lookup "alerts" fields = some (.arr l₁))
    (hperm : l₁.Perm l₂)
    (hkeys : (l₁.map alertKeyD).Nodup) :
    alertsHandler render phab tplDefault args (some (.obj fields)) =
      alertsHandler render phab tplDefault args
        (some (.obj (setField fields "alerts" (.arr l₂)))) := by
  have hver : List.lookup "version" (setField fields "alerts" (.arr l₂)) =
      List.lookup "version" fields :=
    lookup_setField_ne fields "alerts" "version" (.arr l₂) (by decide)
  have hprep : prepareFields (setField fields "alerts" (.arr l₂)) =
      prepareFields fields := by
    unfold prepareFields
    rw [lookup_setField_self fields "alerts" (.arr l₂) (by rw [halerts]; rfl),
      halerts]
    show Option.map
        (fun sorted => setField (setField fields "alerts" (.arr l₂)) "alerts"
          (.arr sorted)) (sortAlerts l₂) =
      Option.map (fun sorted => setField fields "alerts" (.arr sorted))
        (sortAlerts l₁)
    rw [← sortAlerts_perm_eq l₁ l₂ hperm hkeys]
    cases hsa : sortAlerts l₁ with
    | none => rfl
    | some s => simp [setField_setField]
  unfold alertsHandler
  by_cases hu : (unknownArgs args).isEmpty
  · rw [if_pos hu, if_pos hu]
    simp only [hver, hprep]
  · rw [if_neg hu, if_neg hu]

/-- The default title template (`args.tpl_title`),
`\x7b\x7b groupLabels.alertname \x7d\x7d`. -/
def TPL_TITLE : String :=
  "\x7b\x7b groupLabels.alertname \x7d\x7d"

/-- Jinja2 list-key comparison for `dictsort`: entries ordered by lowercased
key (Jinja2 sorts case-insensitively by default), stably. -/
def keyStrLe (a b : String × String) : Prop :=
  strLt b.1.toLower a.1.toLower = false

instance : DecidableRel keyStrLe := fun a b =>
  inferInstanceAs (Decidable (strLt b.1.toLower a.1.toLower = false))

/-- Jinja2's `dictsort` on a string-valued mapping: entries sorted stably by
lowercased key. `none` when the value is not a mapping of strings — rendering
such a value is outside this model (Alertmanager label and annotation values
are strings). -/
def entryStr (kv : String × Json) : Option (String × String) :=
  match kv.2 with
  | .str s => some (kv.1, s)
  | _ => none

def dictsortStr (v : Json) : Option (List (String × String)) :=
  match v with
  | .obj fields => (fields.mapM entryStr).map (List.insertionSort keyStrLe)
  | _ => none

/-- One rendered `* **k**: v` line of a `dictsort` loop body. -/
def kvLine (kv : String × String) : String :=
  "* **" ++ kv.1 ++ "**: " ++ kv.2 ++ "\n"

/-- The rendered lines of one `\x7b% for k, v in m|dictsort %\x7d` loop; an
unsortable value is a rendering error. -/
def mapLines (v : Json) : Except String String :=
  match dictsortStr v with
  | some kvs => .ok (String.join (kvs.map kvLine))
  | none => .error "dictsort on a non-mapping"

/-- The `dictsort` lines of a field of the data; a missing field is a
rendering error (Jinja2 `UndefinedError` from `undefined|dictsort`). -/
def fieldLines (data : Json) (key : String) : Except String String :=
  match jsonLookup data key with
  | some v => mapLines v
  | none => .error ("undefined " ++ key)

/-- The loop condition `a.status == \x27firing\x27`: an absent or non-string
`status` compares unequal (Jinja2 undefined equality is `False`), so the
alert is skipped without error. -/
def statusFiring (a : Json) : Bool :=
  match jsonLookup a "status" with
  | some (.str s) => s == "firing"
  | _ => false

/-- `\x7b\x7b a.generatorURL \x7d\x7d`: a missing value prints as the empty
string (Jinja2's default undefined). -/
def urlOf (a : Json) : String :=
  match jsonLookup a "generatorURL" with
  | some (.str s) => s
  | _ => ""

/-- The rendered block of one firing alert: its dictsorted annotations, its
dictsorted labels, and its `* [Source](generatorURL)` line, in the order
`TPL_DESCRIPTION` emits them. -/
def alertBlock (a : Json) : Except String String := do
  let ann ← fieldLines a "annotations"
  let labs ← fieldLines a "labels"
  pure ("---\n" ++ ann ++ labs ++ "* [Source](" ++ urlOf a ++ ")\n")

/-- Modelled from the spec: the external Jinja2 engine evaluating
`TPL_DESCRIPTION` (the engine is an external collaborator; the template text
is in the source). The common annotations and labels are emitted dictsorted,
then each alert whose `status` equals `"firing"` contributes its block in
alert-list order; non-firing alerts are skipped by the loop condition. An
absent `commonAnnotations`, `commonLabels` or `alerts`, or a firing alert
with an unrenderable `annotations`/`labels`, is a rendering error
(`UndefinedError`), surfaced by the handler as a 500. The template's exact
inter-block whitespace is not reproduced; the emitted content and its order
are. -/
def descriptionOf (data : Json) : Except String String := do
  let commonAnn ← fieldLines data "commonAnnotations"
  let commonLab ← fieldLines data "commonLabels"
  match jsonLookup data "alerts" with
  | some (.arr alerts) => do
    let blocks ← (alerts.filter statusFiring).mapM alertBlock
    pure ("== Common information\n" ++ commonAnn ++ commonLab ++
      "== Firing alerts\n" ++ String.join blocks)
  | _ => .error "undefined alerts"

/-- Modelled from the spec: Jinja2 evaluating the default title template —
the group's `alertname`, or empty when undefined (Jinja2 prints undefined as
the empty string). -/
def titleOf (data : Json) : String :=
  match jsonLookup data "groupLabels" with
  | some g =>
    match jsonLookup g "alertname" with
    | some (.str s) => s
    | _ => ""
  | none => ""

/-- The external template engine for concrete runs, dispatching on the two
templates the program renders. -/
def renderModel : String → Json → Except String String := fun tpl data =>
  if tpl == TPL_DESCRIPTION then descriptionOf data
  else if tpl == TPL_TITLE then .ok (titleOf data)
  else .error "unmodelled template"

/-- An alert firing with label values `["1"]` and source `http://a`. -/
def alertA : Json :=
  .obj [("status", .str "firing"),
    ("labels", .obj [("x", .str "1")]),
    ("annotations", .obj []),
    ("generatorURL", .str "http://a")]

/-- An alert firing with label values `["2"]` (a sort key distinct from
`alertA`'s) and source `http://b`. -/
def alertB2 : Json :=
  .obj [("status", .str "firing"),
    ("labels", .obj [("x", .str "2")]),
    ("annotations", .obj []),
    ("generatorURL", .str "http://b")]

/-- An alert firing with `alertA`'s label values (the same sort key) but a
different source URL. -/
def alertB : Json :=
  .obj [("status", .str "firing"),
    ("labels", .obj [("x", .str "1")]),
    ("annotations", .obj []),
    ("generatorURL", .str "http://b")]

/-- A well-formed Alertmanager payload holding the given alerts. -/
def payloadFields (alerts : List Json) : List (String × Json) :=
  [("version", .str "4"),
    ("groupLabels", .obj [("alertname", .str "SomethingIsBroken")]),
    ("commonAnnotations", .obj []),
    ("commonLabels", .obj []),
    ("alerts", .arr alerts)]

/-- Witness for the amended C10: payloads with the two distinct-key alerts
swapped are handled identically. -/
theorem alerts_order_invariant_distinct_keys_witness :
    alertsHandler renderModel phabW TPL_TITLE []
        (some (.obj (payloadFields [alertA, alertB2]))) =
      alertsHandler renderModel phabW TPL_TITLE []
        (some (.obj (setField (payloadFields [alertA, alertB2]) "alerts"
          (.arr [alertB2, alertA])))) :=
  alerts_order_invariant_distinct_keys renderModel phabW TPL_TITLE []
    (payloadFields [alertA, alertB2])
    [alertA, alertB2] [alertB2, alertA] rfl
    (List.Perm.swap alertB2 alertA []) (by decide)

set_option maxRecDepth 40000 in
/-- Counterexample to C10 as stated: two well-formed payloads identical
except for the order of the alerts array — both alerts firing, sharing the
same sorted label values, so the stable sort preserves their relative
order — on which the handler invokes the engine with different arguments:
the rendered description emits the two `[Source](generatorURL)` lines in
opposite orders. -/
theorem alerts_order_dependent_on_equal_keys :
    ([alertA, alertB].Perm [alertB, alertA]) ∧
      (alertsHandler renderModel phabW TPL_TITLE []
          (some (.obj (payloadFields [alertA, alertB])))).engineCall ≠
        (alertsHandler renderModel phabW TPL_TITLE []
          (some (.obj (setField (payloadFields [alertA, alertB]) "alerts"
            (.arr [alertB, alertA]))))).engineCall :=
  ⟨List.Perm.swap alertB alertA [], by decide⟩
